import Mathlib

/-!
Shallow embedding of the `WikiCrawler` core of `word-sage-viewer-2.2.py`
(constants, `safe_folder_name`, `clean_html`, `save_page`, `crawl_page`),
together with theorems checking the specification's claims about it.

Network and filesystem effects are modelled explicitly: HTTP GET is an
oracle function passed in as a parameter, and the crawler state records
the set of visited URLs, the ordered trace of URLs fetched, and the
ordered trace of files written.
-/

namespace WordSage

/-- Constant `BASE_ARCHIVE = "wiki_archive"` (module level). -/
def BASE_ARCHIVE : String := "wiki_archive"

/-- Constant `SUBLINK_LIMIT = 5` (module level). -/
def SUBLINK_LIMIT : Nat := 5

/-- Constant `IMAGE_LIMIT = 5` (module level, per page). -/
def IMAGE_LIMIT : Nat := 5

/-- An HTML node as BeautifulSoup exposes it: an element with a tag name, a
`class` list, other attributes and children; a text node; or a comment node. -/
inductive HNode where
  | elem (tag : String) (classes : List String) (attrs : List (String × String)) (children : List HNode)
  | text (s : String)
  | comment (s : String)

/-- Attribute lookup, `node.get(key)`: `none` when the attribute is absent or
the node is not an element. -/
def attrOf (n : HNode) (k : String) : Option String :=
  match n with
  | .elem _ _ attrs _ => attrs.lookup k
  | _ => none

/-- Tag of an element node. -/
def tagOf (n : HNode) : Option String :=
  match n with
  | .elem t _ _ _ => some t
  | _ => none

mutual
/-- Model of `soup.find_all` restricted to one node: elements satisfying `p`, in
document order (a node precedes its descendants). -/
def findAllNode (p : HNode → Bool) : HNode → List HNode
  | .elem t c a cs =>
      (if p (.elem t c a cs) then [HNode.elem t c a cs] else []) ++ findAllList p cs
  | .text s => if p (.text s) then [HNode.text s] else []
  | .comment s => if p (.comment s) then [HNode.comment s] else []

/-- Model of `soup.find_all` over a forest, in document order. -/
def findAllList (p : HNode → Bool) : List HNode → List HNode
  | [] => []
  | h :: t => findAllNode p h ++ findAllList p t
end

/-- The boilerplate denylist of `clean_html` (line 39): an element matches the
selector `".navbox, .metadata, .mw-references-wrap, script, style, .toc,
.infobox, header, footer, .mw-editsection, .sistersitebox"` iff its tag is one
of the four tag selectors or its class list contains one of the class
selectors. Non-elements never match a CSS selector. -/
def isBoiler (n : HNode) : Bool :=
  match n with
  | .elem tag classes _ _ =>
      tag = "script" || tag = "style" || tag = "header" || tag = "footer" ||
      classes.contains "navbox" || classes.contains "metadata" ||
      classes.contains "mw-references-wrap" || classes.contains "toc" ||
      classes.contains "infobox" || classes.contains "mw-editsection" ||
      classes.contains "sistersitebox"
  | _ => false

mutual
/-- The `div.decompose()` loop of `clean_html` (lines 39-40): every subtree
whose root matches the denylist is removed entirely (decomposing a match
inside an already-decomposed match is a no-op, so the net effect is removal
of every maximal matching subtree — equivalently, of every matching node). -/
def removeBoilerNode : HNode → List HNode
  | .elem t c a cs =>
      if isBoiler (.elem t c a cs) then []
      else [HNode.elem t c a (removeBoilerList cs)]
  | .text s => [HNode.text s]
  | .comment s => [HNode.comment s]

/-- Map of `removeBoilerNode` over a forest. -/
def removeBoilerList : List HNode → List HNode
  | [] => []
  | h :: t => removeBoilerNode h ++ removeBoilerList t
end

/-- The string predicate of the comment-removal loop (line 42),
`lambda text: isinstance(text, type(soup.Comment))`. `soup.Comment` is not
the `bs4.Comment` class: attribute access on a soup falls back to
`soup.find("Comment")`, which is `None` for every document parsed with
`html.parser` (the parser lowercases tag names, so no tag is named
`"Comment"`). So `type(soup.Comment)` is `NoneType` and the `isinstance`
check is `False` for every navigable string; even if a tag were found, the
type would be `Tag`, and a navigable string is not a `Tag`. The predicate
therefore holds of no string. -/
def commentCheck (_s : String) : Bool := false

mutual
/-- The `comment.extract()` loop of `clean_html` (lines 42-43): remove every
navigable string (text or comment node) whose content satisfies `p`. -/
def removeStringsNode (p : String → Bool) : HNode → List HNode
  | .elem t c a cs => [HNode.elem t c a (removeStringsList p cs)]
  | .text s => if p s then [] else [HNode.text s]
  | .comment s => if p s then [] else [HNode.comment s]

/-- Map of `removeStringsNode` over a forest. -/
def removeStringsList (p : String → Bool) : List HNode → List HNode
  | [] => []
  | h :: t => removeStringsNode p h ++ removeStringsList p t
end

/-- Model of `WikiCrawler.clean_html` (lines 36-44): remove the boilerplate denylist
subtrees, then run the (vacuous, see `commentCheck`) comment-removal pass. -/
def clean_html (forest : List HNode) : List HNode :=
  removeStringsList commentCheck (removeBoilerList forest)

mutual
/-- Whether a node or one of its descendants is a comment node. -/
def hasCommentNode : HNode → Bool
  | .elem _ _ _ cs => hasCommentList cs
  | .text _ => false
  | .comment _ => true

/-- Disjunction of `hasCommentNode` over a forest. -/
def hasCommentList : List HNode → Bool
  | [] => false
  | h :: t => hasCommentNode h || hasCommentList t
end

/-- Model of `s.startswith(pre)` on strings, via the underlying character lists (the
library `String.startsWith` is not used because it does not reduce in the
kernel). -/
def strStartsWith (s pre : String) : Bool :=
  List.isPrefixOf pre.data s.data

/-- Membership `c in s` of a character in a string. -/
def strContainsChar (s : String) (c : Char) : Bool :=
  s.data.contains c

/-- The substring after the last occurrence of `c` (the whole string when `c`
does not occur). -/
def afterLastChar (c : Char) (s : String) : String :=
  ⟨(s.data.reverse.takeWhile (fun x => x ≠ c)).reverse⟩

/-- Whether a URL starts with a scheme (`scheme:`), i.e. has a `:` before any
`/`, `?` or `#`; such URLs are absolute for `urllib.parse.urljoin`. -/
def hasScheme (url : String) : Bool :=
  (url.data.takeWhile (fun c => c ≠ '/' && c ≠ '?' && c ≠ '#')).contains ':'

/-- Model of `urllib.parse.urljoin("https://en.wikipedia.org/", url)` (line 82),
modelled on the URL shapes the crawler meets: a URL with a scheme is kept, a
protocol-relative `//host/...` gets `https:`, a root-relative `/...` is
joined to the origin, and a bare relative reference is resolved against the
base path `/`. Dot-segment and fragment resolution are not modelled. -/
def urljoin (url : String) : String :=
  if hasScheme url then url
  else if strStartsWith url "//" then "https:" ++ url
  else if strStartsWith url "/" then "https://en.wikipedia.org" ++ url
  else "https://en.wikipedia.org/" ++ url

/-- Title extraction `url.split("/")[-1]` (line 95): the substring after the last `/`. -/
def lastSegment (url : String) : String :=
  afterLastChar '/' url

/-- Python's `c.isalnum()` on a single character, modelled exactly for code
points below `0x100`: the ASCII alphanumerics plus the Latin-1 letters
(`ª µ º`, `À`-`Ö`, `Ø`-`ö`, `ø`-`ÿ`) and the Latin-1 numeric characters
(`² ³ ¹ ¼ ½ ¾`). Code points at or above `0x100` (many of which are also
alphanumeric in Python) are outside the modelled fragment; the theorems
below only apply the model below `0x100`. -/
def pyIsAlnum (c : Char) : Bool :=
  c.isAlphanum ||
  (c.toNat = 0xAA || c.toNat = 0xB5 || c.toNat = 0xBA ||
   c.toNat = 0xB2 || c.toNat = 0xB3 || c.toNat = 0xB9 ||
   (0xBC ≤ c.toNat && c.toNat ≤ 0xBE) ||
   (0xC0 ≤ c.toNat && c.toNat ≤ 0xD6) ||
   (0xD8 ≤ c.toNat && c.toNat ≤ 0xF6) ||
   (0xF8 ≤ c.toNat && c.toNat ≤ 0xFF))

/-- Model of `WikiCrawler.safe_folder_name` (lines 33-34):
`"".join(c if c.isalnum() or c in "_-" else "_" for c in title)`. -/
def safe_folder_name (title : String) : String :=
  ⟨title.data.map (fun c => if pyIsAlnum c || c = '_' || c = '-' then c else '_')⟩

/-- The folder-name map as the spec's words describe it (for comparison with
`safe_folder_name`): every character outside `[A-Za-z0-9_-]` is replaced by
`_`, all other characters are kept. `Char.isAlphanum` is exactly ASCII
`[A-Za-z0-9]`. -/
def specSafeFolderName (title : String) : String :=
  ⟨title.data.map (fun c => if c.isAlphanum || c = '_' || c = '-' then c else '_')⟩

/-- Model of `os.path.splitext(p)[1]` (posix): the extension of the last path
component, taken from its last `.`, empty when the component has no dot or
consists of leading dots up to that last dot. -/
def splitextExt (p : String) : String :=
  let base := (afterLastChar '/' p).data
  let r := base.reverse
  let i := r.indexOf '.'
  if i = r.length then ""
  else
    let k := base.length - 1 - i
    if (base.take k).any (fun c => c ≠ '.') then ⟨base.drop k⟩ else ""

/-- Extension computation `ext = os.path.splitext(src)[1].split("?")[0]` (line 71): the extension
of the full (already resolved) URL string, truncated at the first `?`. -/
def imgExt (src : String) : String :=
  ⟨(splitextExt src).data.takeWhile (fun c => c ≠ '?')⟩

/-- The extension as the spec's words describe it (for comparison with
`imgExt`): the URL's path extension with any query string stripped, i.e. the
extension of the part of the URL before the first `?`. -/
def specPathExt (src : String) : String :=
  splitextExt ⟨src.data.takeWhile (fun c => c ≠ '?')⟩

/-- The image-source rewrite of `save_page` (lines 64-67): `//...` gets
`https:` prepended, other `/...` are joined to `https://en.wikipedia.org`,
anything else is fetched as is. -/
def resolveImgSrc (src : String) : String :=
  if strStartsWith src "//" then "https:" ++ src
  else if strStartsWith src "/" then "https://en.wikipedia.org" ++ src
  else src

/-- The crawlable-link predicate of `crawl_page` (line 103):
`href.startswith("/wiki/") and ":" not in href`. -/
def crawlable (href : String) : Bool :=
  strStartsWith href "/wiki/" && !(strContainsChar href ':')

/-- Result of `requests.get` on a page URL: a transport error (the raised
exception, caught by `crawl_page`'s `except`) or a status code with the
response body, already parsed into a forest of nodes. -/
inductive PageResult where
  | err
  | ok (status : Nat) (body : List HNode)

/-- Result of `requests.get` on an image URL: a transport error (caught by
`save_page`'s inner `except`) or a status code with the response bytes. -/
inductive ImgResult where
  | err
  | ok (status : Nat) (content : String)

/-- A file written by the crawler: a page document
`{folder}/page.html` or an image `{folder}/images/{fname}`. -/
inductive FileWrite where
  | page (folder : String) (content : List HNode)
  | image (folder : String) (fname : String) (content : String)

/-- The observable state of one `WikiCrawler` instance: `self.visited`, plus
the ordered trace of URLs passed to `requests.get` and the ordered trace of
files written (the latter two record the side effects). -/
structure CrawlState where
  visited : List String
  fetched : List String
  files : List FileWrite

/-- An image file written by the `save_page` image loop: the loop index `i`,
the (pre-rewrite) `src` attribute, the file name `img_{i}{ext}` and the
downloaded bytes. -/
structure SavedImage where
  idx : Nat
  src : String
  fname : String
  content : String
deriving DecidableEq

/-- The image loop of `save_page` (lines 57-78) over the `enumerate`d list of
`src` attributes, carrying `img_count`. Returns the images written and the
URLs fetched. Per element: the loop breaks once `img_count >= IMAGE_LIMIT`;
a missing or empty `src` is skipped (`if not src: continue`); otherwise the
rewritten URL is fetched — on a transport error (caught) or a non-200 status
nothing is written and the count is unchanged; on 200 the file
`img_{i}{ext}` is written and the count incremented. -/
def imageLoopAux (imf : String → ImgResult) : Nat → List (Nat × Option String) → List SavedImage × List String
  | _, [] => ([], [])
  | count, (i, osrc) :: rest =>
    if IMAGE_LIMIT ≤ count then ([], [])
    else
      match osrc with
      | none => imageLoopAux imf count rest
      | some src =>
        if src = "" then imageLoopAux imf count rest
        else
          let rsrc := resolveImgSrc src
          match imf rsrc with
          | .err =>
            let rec_ := imageLoopAux imf count rest
            (rec_.1, rsrc :: rec_.2)
          | .ok status content =>
            if status = 200 then
              let file : SavedImage := ⟨i, src, "img_" ++ toString i ++ imgExt rsrc, content⟩
              let rec_ := imageLoopAux imf (count + 1) rest
              (file :: rec_.1, rsrc :: rec_.2)
            else
              let rec_ := imageLoopAux imf count rest
              (rec_.1, rsrc :: rec_.2)

/-- The image loop started on `enumerate(images)` with `img_count = 0`. -/
def imageLoop (imf : String → ImgResult) (imgs : List (Option String)) : List SavedImage × List String :=
  imageLoopAux imf 0 imgs.enum

/-- What one iteration of the image loop produces for the enumerated entry
`p` when the counter is below the cap: `none` when the `src` is missing or
empty or the fetch fails or returns non-200, and the written file (named by
the loop index and the extension of the rewritten URL) on a 200. Used to
characterize the loop. -/
def imageSuccess (imf : String → ImgResult) (p : Nat × Option String) : Option SavedImage :=
  match p.2 with
  | none => none
  | some src =>
    if src = "" then none
    else
      match imf (resolveImgSrc src) with
      | .err => none
      | .ok status content =>
        if status = 200 then
          some ⟨p.1, src, "img_" ++ toString p.1 ++ imgExt (resolveImgSrc src), content⟩
        else none

/-- The `src` attributes of a page's `img` elements, in document order
(`soup.find_all("img")`, line 56, then `img.get("src")`). -/
def imgSrcs (forest : List HNode) : List (Option String) :=
  (findAllList (fun n => tagOf n = some "img") forest).map (fun n => attrOf n "src")

/-- The `href` attributes of a page's anchors, in document order
(`soup.find_all("a", href=True)`, line 100: anchors that have an `href`). -/
def anchorHrefs (forest : List HNode) : List String :=
  (findAllList (fun n => tagOf n = some "a" && (attrOf n "href").isSome) forest).filterMap
    (fun n => attrOf n "href")

/-- Model of `WikiCrawler.save_page` (lines 46-79): write the cleaned document to
`{BASE_ARCHIVE}/{safe_folder_name title}/page.html`, then run the image loop
and write its files under `.../images/`; returns the folder path and the
updated state. -/
def save_page (imf : String → ImgResult) (title : String) (soup : List HNode)
    (s : CrawlState) : String × CrawlState :=
  let folder := BASE_ARCHIVE ++ "/" ++ safe_folder_name title
  let r := imageLoop imf (imgSrcs soup)
  (folder,
   { s with
     files := s.files ++ [FileWrite.page folder soup] ++
       r.1.map (fun w => FileWrite.image folder w.fname w.content),
     fetched := s.fetched ++ r.2 })

/-- The sublink loop of `crawl_page` (lines 99-107), abstracted over the
recursive call `g`: scan `links` in order carrying `count`; on a crawlable
link, break out of the whole loop if `count >= SUBLINK_LIMIT`, otherwise
increment `count` and recurse; skip non-crawlable links. -/
def crawlLoopF (g : CrawlState → String → CrawlState) :
    CrawlState → Nat → List String → CrawlState
  | s, _, [] => s
  | s, count, h :: t =>
    if crawlable h then
      if SUBLINK_LIMIT ≤ count then s
      else crawlLoopF g (g s h) (count + 1) t
    else crawlLoopF g s count t

/-- Model of `WikiCrawler.crawl_page` (lines 81-111), with `fuel` an upper bound on
the recursion depth added for totality (the Python recursion has no such
bound; every theorem below holds for every fuel value). Normalize the URL;
atomically check-and-insert it into `visited` (already present: return
`None` untouched); fetch it (recording the URL in the fetch trace); on a
transport error or non-200 status return `None`; otherwise clean the body,
save the page under the title taken from the URL's last segment, run the
sublink loop with `depth+1`, and return the folder. -/
def crawl_page (pf : String → PageResult) (imf : String → ImgResult) :
    Nat → CrawlState → String → Nat → Option String × CrawlState
  | 0, s, _, _ => (none, s)
  | fuel + 1, s, url0, depth =>
    let url := urljoin url0
    if url ∈ s.visited then (none, s)
    else
      let s1 : CrawlState :=
        { s with visited := url :: s.visited, fetched := s.fetched ++ [url] }
      match pf url with
      | .err => (none, s1)
      | .ok status body =>
        if status = 200 then
          let soup := clean_html body
          let title := lastSegment url
          let fs2 := save_page imf title soup s1
          let s3 := crawlLoopF
            (fun st h => (crawl_page pf imf fuel st h (depth + 1)).2)
            fs2.2 0 (anchorHrefs soup)
          (some fs2.1, s3)
        else (none, s1)

/-!  Helper lemmas  -/

/-- One-step unfolding of `crawl_page` at positive fuel. -/
lemma crawl_page_succ (pf : String → PageResult) (imf : String → ImgResult)
    (fuel : Nat) (s : CrawlState) (url0 : String) (depth : Nat) :
    crawl_page pf imf (fuel + 1) s url0 depth =
      (if urljoin url0 ∈ s.visited then (none, s)
       else
         let s1 : CrawlState :=
           { s with visited := urljoin url0 :: s.visited,
                    fetched := s.fetched ++ [urljoin url0] }
         match pf (urljoin url0) with
         | .err => (none, s1)
         | .ok status body =>
           if status = 200 then
             let soup := clean_html body
             let fs2 := save_page imf (lastSegment (urljoin url0)) soup s1
             (some fs2.1,
              crawlLoopF (fun st h => (crawl_page pf imf fuel st h (depth + 1)).2)
                fs2.2 0 (anchorHrefs soup))
           else (none, s1)) := rfl

/-- The sublink loop is exactly a fold of the recursive call over the first
`SUBLINK_LIMIT - count` crawlable links, in order. -/
lemma crawlLoopF_eq_foldl (g : CrawlState → String → CrawlState) :
    ∀ (l : List String) (s : CrawlState) (c : Nat),
      crawlLoopF g s c l = ((l.filter crawlable).take (SUBLINK_LIMIT - c)).foldl g s := by
  intro l
  induction l with
  | nil => intro s c; simp [crawlLoopF]
  | cons h t ih =>
    intro s c
    cases hc : crawlable h with
    | false => simp [crawlLoopF, hc, ih]
    | true =>
      by_cases hcount : SUBLINK_LIMIT ≤ c
      · have h0 : SUBLINK_LIMIT - c = 0 := Nat.sub_eq_zero_of_le hcount
        simp [crawlLoopF, hc, hcount, h0]
      · have h5 : SUBLINK_LIMIT - c = (SUBLINK_LIMIT - (c + 1)) + 1 := by omega
        simp [crawlLoopF, hc, hcount, h5, ih]

/-- If two step functions agree, the sublink loop agrees. -/
lemma crawlLoopF_congr {g g' : CrawlState → String → CrawlState}
    (hg : ∀ st h, g st h = g' st h) :
    ∀ (l : List String) (s : CrawlState) (c : Nat),
      crawlLoopF g s c l = crawlLoopF g' s c l := by
  intro l
  induction l with
  | nil => intro s c; rfl
  | cons h t ih =>
    intro s c
    simp only [crawlLoopF, hg]
    split <;> [skip; exact ih s c]
    split
    · rfl
    · exact ih (g' s h) (c + 1)

/-- If every step only grows `visited`, so does the sublink loop. -/
lemma crawlLoopF_visited_mono {g : CrawlState → String → CrawlState}
    (hg : ∀ st h, st.visited ⊆ (g st h).visited) :
    ∀ (l : List String) (s : CrawlState) (c : Nat),
      s.visited ⊆ (crawlLoopF g s c l).visited := by
  intro l
  induction l with
  | nil => intro s c; exact fun _ hx => hx
  | cons h t ih =>
    intro s c
    simp only [crawlLoopF]
    split
    · split
      · exact fun _ hx => hx
      · exact fun x hx => ih (g s h) (c + 1) (hg s h hx)
    · exact ih s c

/-- Saving a page does not change the visited set. -/
lemma save_page_visited (imf : String → ImgResult) (title : String)
    (soup : List HNode) (s : CrawlState) :
    (save_page imf title soup s).2.visited = s.visited := rfl

/-- The visited set only ever grows across `crawl_page` calls. -/
lemma crawl_page_visited_mono (pf : String → PageResult) (imf : String → ImgResult) :
    ∀ (fuel : Nat) (s : CrawlState) (u : String) (d : Nat),
      s.visited ⊆ (crawl_page pf imf fuel s u d).2.visited := by
  intro fuel
  induction fuel with
  | zero => intro s u d; exact fun _ hx => hx
  | succ f ih =>
    intro s u d
    rw [crawl_page_succ]
    split
    · exact fun _ hx => hx
    · cases hpf : pf (urljoin u) with
      | err => exact fun x hx => List.mem_cons_of_mem _ hx
      | ok status body =>
        simp only
        split
        · refine fun x hx => crawlLoopF_visited_mono (fun st h => ih st h (d + 1)) _ _ _ ?_
          rw [save_page_visited]
          exact List.mem_cons_of_mem _ hx
        · exact fun x hx => List.mem_cons_of_mem _ hx

/-- After a `crawl_page u` call, the normalized URL is in the visited set. -/
lemma crawl_page_mem_visited (pf : String → PageResult) (imf : String → ImgResult)
    (fuel : Nat) (s : CrawlState) (u : String) (d : Nat) :
    urljoin u ∈ (crawl_page pf imf (fuel + 1) s u d).2.visited := by
  rw [crawl_page_succ]
  split
  · assumption
  · cases hpf : pf (urljoin u) with
    | err => exact List.mem_cons_self _ _
    | ok status body =>
      simp only
      split
      · refine crawlLoopF_visited_mono
          (fun st h => crawl_page_visited_mono pf imf fuel st h (d + 1)) _ _ _ ?_
        rw [save_page_visited]
        exact List.mem_cons_self _ _
      · exact List.mem_cons_self _ _

/-- Calling `crawl_page` on an already-visited URL returns `None` and leaves
the state untouched (no fetch, no file write). -/
lemma crawl_page_skip (pf : String → PageResult) (imf : String → ImgResult)
    (fuel : Nat) (s : CrawlState) (u : String) (d : Nat)
    (h : urljoin u ∈ s.visited) :
    crawl_page pf imf (fuel + 1) s u d = (none, s) := by
  rw [crawl_page_succ, if_pos h]

/-- C1: after `crawl_page u` has returned, a second `crawl_page u` on the
same crawler instance returns `None` and leaves the state exactly as it was
(so it issues no network fetch and writes no file); and the visited set only
ever grows across `crawl_page` calls. -/
theorem claim_C1 (pf : String → PageResult) (imf : String → ImgResult)
    (f1 f2 : Nat) (s : CrawlState) (u : String) (d1 d2 : Nat) :
    s.visited ⊆ (crawl_page pf imf f1 s u d1).2.visited ∧
    crawl_page pf imf (f2 + 1) (crawl_page pf imf (f1 + 1) s u d1).2 u d2 =
      (none, (crawl_page pf imf (f1 + 1) s u d1).2) :=
  ⟨crawl_page_visited_mono pf imf f1 s u d1,
   crawl_page_skip pf imf f2 _ u d2 (crawl_page_mem_visited pf imf f1 s u d1)⟩

/-- Closed instance of C1: one concrete crawler run, then a repeat call. -/
theorem claim_C1_witness :
    (⟨[], [], []⟩ : CrawlState).visited ⊆
      (crawl_page (fun _ => PageResult.err) (fun _ => ImgResult.err) 0
        ⟨[], [], []⟩ "" 0).2.visited ∧
    crawl_page (fun _ => PageResult.err) (fun _ => ImgResult.err) (0 + 1)
      (crawl_page (fun _ => PageResult.err) (fun _ => ImgResult.err) (0 + 1)
        ⟨[], [], []⟩ "" 0).2 "" 0 =
      (none,
       (crawl_page (fun _ => PageResult.err) (fun _ => ImgResult.err) (0 + 1)
         ⟨[], [], []⟩ "" 0).2) :=
  claim_C1 (fun _ => PageResult.err) (fun _ => ImgResult.err) 0 0 ⟨[], [], []⟩ "" 0 0

/-- C2: the sublink loop is exactly a fold of the recursive call over the
first `SUBLINK_LIMIT` (5) crawlable links in document order — non-matching
links are never counted toward the cap and never recursed into — and a
successful `crawl_page` recurses exactly into those links of its cleaned
page. -/
theorem claim_C2 (g : CrawlState → String → CrawlState) (l : List String)
    (s : CrawlState) (c : Nat) (pf : String → PageResult) (imf : String → ImgResult)
    (fuel : Nat) (s' : CrawlState) (u : String) (d status : Nat) (body : List HNode)
    (hvis : urljoin u ∉ s'.visited) (hpf : pf (urljoin u) = .ok status body)
    (hst : status = 200) :
    crawlLoopF g s c l = ((l.filter crawlable).take (SUBLINK_LIMIT - c)).foldl g s ∧
    crawl_page pf imf (fuel + 1) s' u d =
      (some (save_page imf (lastSegment (urljoin u)) (clean_html body)
        { s' with visited := urljoin u :: s'.visited,
                  fetched := s'.fetched ++ [urljoin u] }).1,
       (((anchorHrefs (clean_html body)).filter crawlable).take SUBLINK_LIMIT).foldl
         (fun st h => (crawl_page pf imf fuel st h (d + 1)).2)
         (save_page imf (lastSegment (urljoin u)) (clean_html body)
           { s' with visited := urljoin u :: s'.visited,
                     fetched := s'.fetched ++ [urljoin u] }).2) := by
  subst hst
  refine ⟨crawlLoopF_eq_foldl g l s c, ?_⟩
  rw [crawl_page_succ, if_neg hvis, hpf]
  simp [crawlLoopF_eq_foldl]

/-- Closed instance of C2: a concrete page with eight crawlable and two
non-crawlable links recurses into exactly the first five crawlable ones. -/
theorem claim_C2_witness :
    crawlLoopF (fun st _ => st) ⟨[], [], []⟩ 0
        ["/wiki/L1", "/wiki/L2", "https://off.site/x", "/wiki/L3", "/wiki/L4",
         "/wiki/File:Y.png", "/wiki/L5", "/wiki/L6", "/wiki/L7", "/wiki/L8"] =
      (((["/wiki/L1", "/wiki/L2", "https://off.site/x", "/wiki/L3", "/wiki/L4",
          "/wiki/File:Y.png", "/wiki/L5", "/wiki/L6", "/wiki/L7",
          "/wiki/L8"].filter crawlable).take (SUBLINK_LIMIT - 0)).foldl
        (fun st _ => st) ⟨[], [], []⟩) ∧
    crawl_page (fun _ => PageResult.ok 200 []) (fun _ => ImgResult.err) (0 + 1)
        ⟨[], [], []⟩ "" 0 =
      (some (save_page (fun _ => ImgResult.err) (lastSegment (urljoin ""))
        (clean_html []) ⟨[urljoin ""], [urljoin ""], []⟩).1,
       (((anchorHrefs (clean_html [])).filter crawlable).take SUBLINK_LIMIT).foldl
         (fun st h => (crawl_page (fun _ => PageResult.ok 200 [])
           (fun _ => ImgResult.err) 0 st h (0 + 1)).2)
         (save_page (fun _ => ImgResult.err) (lastSegment (urljoin ""))
           (clean_html []) ⟨[urljoin ""], [urljoin ""], []⟩).2) :=
  claim_C2 (fun st _ => st) _ ⟨[], [], []⟩ 0 (fun _ => PageResult.ok 200 [])
    (fun _ => ImgResult.err) 0 ⟨[], [], []⟩ "" 0 200 []
    (by simp) rfl rfl

/-- C9: the `depth` argument has no effect on the behaviour of `crawl_page`:
from equal states, any two depths give the same return value, the same
visited-set updates, the same fetches and the same files, at every fuel
bound — the only recursion bound in the code is the per-page fan-out. -/
theorem claim_C9 (pf : String → PageResult) (imf : String → ImgResult) :
    ∀ (fuel : Nat) (s : CrawlState) (u : String) (d1 d2 : Nat),
      crawl_page pf imf fuel s u d1 = crawl_page pf imf fuel s u d2 := by
  intro fuel
  induction fuel with
  | zero => intros; rfl
  | succ f ih =>
    intro s u d1 d2
    rw [crawl_page_succ, crawl_page_succ]
    split
    · rfl
    · cases hpf : pf (urljoin u) with
      | err => rfl
      | ok status body =>
        simp only
        split
        · rw [crawlLoopF_congr (fun st h => congrArg Prod.snd (ih st h (d1 + 1) (d2 + 1)))]
        · rfl

/-- Once the success counter has reached the cap, the image loop scans
nothing further: no file is written and no URL is fetched. -/
lemma imageLoopAux_cap (imf : String → ImgResult) (l : List (Nat × Option String))
    (c : Nat) (h : IMAGE_LIMIT ≤ c) : imageLoopAux imf c l = ([], []) := by
  cases l with
  | nil => rfl
  | cons p rest =>
    rcases p with ⟨i, osrc⟩
    simp [imageLoopAux, h]

/-- The files the image loop writes are exactly the first
`IMAGE_LIMIT - count` successful downloads of the enumerated list. -/
lemma imageLoopAux_written (imf : String → ImgResult) :
    ∀ (l : List (Nat × Option String)) (c : Nat),
      (imageLoopAux imf c l).1 = (l.filterMap (imageSuccess imf)).take (IMAGE_LIMIT - c) := by
  intro l
  induction l with
  | nil => intro c; simp [imageLoopAux]
  | cons p rest ih =>
    intro c
    rcases p with ⟨i, osrc⟩
    by_cases hcap : IMAGE_LIMIT ≤ c
    · have h0 : IMAGE_LIMIT - c = 0 := Nat.sub_eq_zero_of_le hcap
      simp [imageLoopAux, hcap, h0]
    · cases osrc with
      | none => simp [imageLoopAux, hcap, imageSuccess, ih]
      | some src =>
        by_cases hemp : src = ""
        · simp [imageLoopAux, hcap, hemp, imageSuccess, ih]
        · cases himf : imf (resolveImgSrc src) with
          | err => simp [imageLoopAux, hcap, hemp, imageSuccess, himf, ih]
          | ok status content =>
            by_cases hst : status = 200
            · subst hst
              have h5 : IMAGE_LIMIT - c = (IMAGE_LIMIT - (c + 1)) + 1 := by omega
              simp [imageLoopAux, hcap, hemp, imageSuccess, himf, ih, h5]
            · simp [imageLoopAux, hcap, hemp, imageSuccess, himf, hst, ih]

/-- Unpacking a successful image download: the entry is the loop index
paired with its (nonempty) `src`, and the file name is
`img_{i}{ext-of-rewritten-src}`. -/
lemma imageSuccess_shape {imf : String → ImgResult} {p : Nat × Option String}
    {e : SavedImage} (h : imageSuccess imf p = some e) :
    p = (e.idx, some e.src) ∧
    e.fname = "img_" ++ toString e.idx ++ imgExt (resolveImgSrc e.src) ∧
    e.src ≠ "" := by
  rcases p with ⟨i, osrc⟩
  cases osrc with
  | none => simp [imageSuccess] at h
  | some src =>
    by_cases hemp : src = ""
    · simp [imageSuccess, hemp] at h
    · cases himf : imf (resolveImgSrc src) with
      | err => simp [imageSuccess, hemp, himf] at h
      | ok status content =>
        by_cases hst : status = 200
        · subst hst
          simp only [imageSuccess, himf, if_neg hemp, if_true, Option.some_inj] at h
          subst h
          exact ⟨rfl, rfl, hemp⟩
        · simp [imageSuccess, hemp, himf, hst] at h

/-- Enumeration `List.enumFrom` has strictly increasing indices. -/
lemma pairwise_fst_lt_enumFrom {α : Type _} (l : List α) :
    ∀ n, List.Pairwise (fun a b => a.1 < b.1) (l.enumFrom n) := by
  induction l with
  | nil => intro n; simp
  | cons a t ih =>
    intro n
    refine List.Pairwise.cons ?_ (ih (n + 1))
    intro x hx
    rcases x with ⟨i, y⟩
    have := (List.mk_mem_enumFrom_iff_le_and_getElem?_sub.mp hx).1
    simpa using Nat.lt_of_succ_le this

/-- Mapping `filterMap` carries a pairwise relation through `f`. -/
lemma pairwise_filterMap {α β : Type _} (f : α → Option β) {R : α → α → Prop}
    {S : β → β → Prop}
    (hf : ∀ a b x y, R a b → f a = some x → f b = some y → S x y) :
    ∀ l : List α, l.Pairwise R → (l.filterMap f).Pairwise S := by
  intro l
  induction l with
  | nil => intro; simp
  | cons a t ih =>
    intro hl
    obtain ⟨ha, ht⟩ := List.pairwise_cons.mp hl
    rw [List.filterMap_cons]
    cases hfa : f a with
    | none => exact ih ht
    | some x =>
      refine List.Pairwise.cons ?_ (ih ht)
      intro y hy
      obtain ⟨b, hb, hfb⟩ := List.mem_filterMap.mp hy
      exact hf a b x y (ha b hb) hfa hfb

/-- Every file the image loop writes comes from a genuine position of the
original image list: index `idx`, that position's `src`, name
`img_{idx}{ext}`. -/
lemma imageLoop_mem {imf : String → ImgResult} {imgs : List (Option String)}
    {e : SavedImage} (he : e ∈ (imageLoop imf imgs).1) :
    e.fname = "img_" ++ toString e.idx ++ imgExt (resolveImgSrc e.src) ∧
    imgs.get? e.idx = some (some e.src) ∧ e.src ≠ "" := by
  rw [imageLoop, imageLoopAux_written] at he
  have he2 := List.mem_of_mem_take he
  obtain ⟨p, hpmem, hps⟩ := List.mem_filterMap.mp he2
  obtain ⟨hp, hname, hsrc⟩ := imageSuccess_shape hps
  subst hp
  refine ⟨hname, ?_, hsrc⟩
  rw [List.get?_eq_getElem?]
  exact List.mem_enum_iff_getElem?.mp hpmem

/-- The indices of the files the image loop writes are strictly increasing
(they are original positions, so a skipped position is never reused). -/
lemma imageLoop_pairwise (imf : String → ImgResult) (imgs : List (Option String)) :
    List.Pairwise (fun a b => a.idx < b.idx) (imageLoop imf imgs).1 := by
  rw [imageLoop, imageLoopAux_written]
  refine List.Pairwise.sublist (List.take_sublist _ _) ?_
  refine pairwise_filterMap (imageSuccess imf) ?_ _ (pairwise_fst_lt_enumFrom imgs 0)
  intro a b x y hR hfa hfb
  have hxa := (imageSuccess_shape hfa).1
  have hxb := (imageSuccess_shape hfb).1
  rw [hxa, hxb] at hR
  exact hR

/-- C3 (code bug): the boilerplate denylist is removed, nested boilerplate
included, but comment nodes survive `clean_html`: the comment-removal pass
tests `isinstance(text, type(soup.Comment))`, and `soup.Comment` is a
`find("Comment")` lookup returning `None`, so the test is always false and
`page.html` keeps its comments — here the input comment nodes survive
cleaning, contradicting the claim. -/
theorem claim_C3_bug :
    clean_html
      [HNode.elem "div" ["navbox"] []
         [HNode.text "cruft", HNode.elem "table" ["infobox"] [] []],
       HNode.comment "hidden",
       HNode.elem "p" [] [] [HNode.text "body", HNode.comment "inner"]] =
      [HNode.comment "hidden",
       HNode.elem "p" [] [] [HNode.text "body", HNode.comment "inner"]] ∧
    hasCommentList
      (clean_html
        [HNode.elem "div" ["navbox"] []
           [HNode.text "cruft", HNode.elem "table" ["infobox"] [] []],
         HNode.comment "hidden",
         HNode.elem "p" [] [] [HNode.text "body", HNode.comment "inner"]]) = true ∧
    commentCheck "hidden" = false :=
  ⟨rfl, rfl, rfl⟩

/-- C4: the image loop writes at most `IMAGE_LIMIT` (5) files per page — its
output is exactly the first 5 successful downloads of the enumerated image
list, so a failed or non-200 fetch consumes no cap slot — and once the
success counter reaches the cap the loop scans nothing further (no write,
no fetch). -/
theorem claim_C4 (imf : String → ImgResult) (imgs : List (Option String))
    (l : List (Nat × Option String)) (c : Nat) (hc : IMAGE_LIMIT ≤ c) :
    (imageLoop imf imgs).1.length ≤ IMAGE_LIMIT ∧
    (imageLoop imf imgs).1 = (imgs.enum.filterMap (imageSuccess imf)).take IMAGE_LIMIT ∧
    imageLoopAux imf c l = ([], []) := by
  refine ⟨?_, ?_, imageLoopAux_cap imf l c hc⟩
  · rw [imageLoop, imageLoopAux_written]
    simp [List.length_take]
  · rw [imageLoop, imageLoopAux_written, Nat.sub_zero]

/-- Closed instance of C4: a page with seven images, the third of which
fails to download, persists exactly five files. -/
theorem claim_C4_witness :
    ((imageLoop (fun u => if u = "https://h/3.png" then ImgResult.err else ImgResult.ok 200 "b")
        [some "https://h/1.png", some "https://h/2.png", some "https://h/3.png",
         some "https://h/4.png", some "https://h/5.png", some "https://h/6.png",
         some "https://h/7.png"]).1.length ≤ IMAGE_LIMIT) ∧
    ((imageLoop (fun u => if u = "https://h/3.png" then ImgResult.err else ImgResult.ok 200 "b")
        [some "https://h/1.png", some "https://h/2.png", some "https://h/3.png",
         some "https://h/4.png", some "https://h/5.png", some "https://h/6.png",
         some "https://h/7.png"]).1 =
      (([some "https://h/1.png", some "https://h/2.png", some "https://h/3.png",
         some "https://h/4.png", some "https://h/5.png", some "https://h/6.png",
         some "https://h/7.png"].enum.filterMap
          (imageSuccess (fun u => if u = "https://h/3.png" then ImgResult.err else ImgResult.ok 200 "b"))).take
        IMAGE_LIMIT)) ∧
    imageLoopAux (fun u => if u = "https://h/3.png" then ImgResult.err else ImgResult.ok 200 "b")
      IMAGE_LIMIT [(0, some "https://h/9.png")] = ([], []) :=
  claim_C4 (fun u => if u = "https://h/3.png" then ImgResult.err else ImgResult.ok 200 "b")
    [some "https://h/1.png", some "https://h/2.png", some "https://h/3.png",
     some "https://h/4.png", some "https://h/5.png", some "https://h/6.png",
     some "https://h/7.png"]
    [(0, some "https://h/9.png")] IMAGE_LIMIT (Nat.le_refl _)

/-- C5 (counterexample): for the source URL `https://h/x.png?v=1.2` the code
writes `img_0.2` — `os.path.splitext` runs on the full URL including the
query, and only then is the extension cut at `?` — while the claim's
"path extension with the query string stripped" is `.png`. -/
theorem claim_C5_counterexample :
    ((imageLoop (fun _ => ImgResult.ok 200 "b") [some "https://h/x.png?v=1.2"]).1.map
        (fun e => e.fname) = ["img_0.2"]) ∧
    specPathExt "https://h/x.png?v=1.2" = ".png" ∧
    ((imageLoop (fun _ => ImgResult.ok 200 "b") [some "https://h/x.png?v=1.2"]).1.map
        (fun e => e.fname) ≠
      ["img_0" ++ specPathExt "https://h/x.png?v=1.2"]) :=
  ⟨rfl, rfl, by decide⟩

/-- C5 (amended): every file the image loop writes is named
`img_{i}{ext}` where `i` is the image's ordinal position in the original
enumeration (the loop index, so filenames may have gaps when earlier images
fail) and `ext` is `os.path.splitext` applied to the full rewritten URL,
truncated at the first `?` — which equals the path extension with the query
stripped only when the query contains no dot. -/
theorem claim_C5 (imf : String → ImgResult) (imgs : List (Option String))
    (e : SavedImage) (he : e ∈ (imageLoop imf imgs).1) :
    e.fname = "img_" ++ toString e.idx ++ imgExt (resolveImgSrc e.src) ∧
    imgs.get? e.idx = some (some e.src) ∧ e.src ≠ "" :=
  imageLoop_mem he

/-- Closed instance of the amended C5: the single written file of a
one-image page has the loop-index name with the code's extension. -/
theorem claim_C5_witness :
    (⟨0, "/y.png", "img_0.png", "b"⟩ : SavedImage).fname =
      "img_" ++ toString (⟨0, "/y.png", "img_0.png", "b"⟩ : SavedImage).idx ++
        imgExt (resolveImgSrc (⟨0, "/y.png", "img_0.png", "b"⟩ : SavedImage).src) ∧
    [some "/y.png"].get? (⟨0, "/y.png", "img_0.png", "b"⟩ : SavedImage).idx =
      some (some (⟨0, "/y.png", "img_0.png", "b"⟩ : SavedImage).src) ∧
    (⟨0, "/y.png", "img_0.png", "b"⟩ : SavedImage).src ≠ "" :=
  claim_C5 (fun _ => ImgResult.ok 200 "b") [some "/y.png"]
    ⟨0, "/y.png", "img_0.png", "b"⟩ (by decide)

/-- A string starting with `//` starts with `/`. -/
lemma startsWith_slash_of_dslash {s : String} (h : strStartsWith s "//" = true) :
    strStartsWith s "/" = true := by
  unfold strStartsWith at h ⊢
  rw [List.isPrefixOf_iff_prefix] at h ⊢
  exact List.IsPrefix.trans ⟨['/'], rfl⟩ h

/-- C6: the image-source rewrite before fetching: a protocol-relative
`//host/path` becomes `https://host/path`, a root-relative `/path` becomes
`https://en.wikipedia.org/path`, any other URL passes through unchanged;
and the image loop fetches exactly the rewritten URL. -/
theorem claim_C6 (s : String) (imf : String → ImgResult) (c i : Nat)
    (rest : List (Nat × Option String)) (hc : c < IMAGE_LIMIT) (hs : s ≠ "") :
    (strStartsWith s "//" = true → resolveImgSrc s = "https:" ++ s) ∧
    (strStartsWith s "/" = true → strStartsWith s "//" = false →
      resolveImgSrc s = "https://en.wikipedia.org" ++ s) ∧
    (strStartsWith s "/" = false → resolveImgSrc s = s) ∧
    resolveImgSrc "//cdn.example/x.png" = "https://cdn.example/x.png" ∧
    (∃ fs', (imageLoopAux imf c ((i, some s) :: rest)).2 = resolveImgSrc s :: fs') := by
  have hcap : ¬ IMAGE_LIMIT ≤ c := by omega
  refine ⟨?_, ?_, ?_, rfl, ?_⟩
  · intro h
    simp [resolveImgSrc, h]
  · intro h1 h2
    simp [resolveImgSrc, h1, h2]
  · intro h
    cases hd : strStartsWith s "//" with
    | false => simp [resolveImgSrc, h, hd]
    | true => exact absurd (startsWith_slash_of_dslash hd) (by simp [h])
  · cases himf : imf (resolveImgSrc s) with
    | err =>
      exact ⟨(imageLoopAux imf c rest).2, by simp [imageLoopAux, hcap, hs, himf]⟩
    | ok status content =>
      by_cases hst : status = 200
      · subst hst
        exact ⟨(imageLoopAux imf (c + 1) rest).2, by simp [imageLoopAux, hcap, hs, himf]⟩
      · exact ⟨(imageLoopAux imf c rest).2, by simp [imageLoopAux, hcap, hs, himf, hst]⟩

/-- Closed instance of C6: the spec's scenario, a protocol-relative image
source resolving to `https://cdn.example/x.png` before fetch. -/
theorem claim_C6_witness :
    (strStartsWith "//cdn.example/x.png" "//" = true →
      resolveImgSrc "//cdn.example/x.png" = "https:" ++ "//cdn.example/x.png") ∧
    (strStartsWith "//cdn.example/x.png" "/" = true →
      strStartsWith "//cdn.example/x.png" "//" = false →
      resolveImgSrc "//cdn.example/x.png" = "https://en.wikipedia.org" ++ "//cdn.example/x.png") ∧
    (strStartsWith "//cdn.example/x.png" "/" = false →
      resolveImgSrc "//cdn.example/x.png" = "//cdn.example/x.png") ∧
    resolveImgSrc "//cdn.example/x.png" = "https://cdn.example/x.png" ∧
    (∃ fs', (imageLoopAux (fun _ => ImgResult.err) 0
        ((0, some "//cdn.example/x.png") :: [])).2 =
      resolveImgSrc "//cdn.example/x.png" :: fs') :=
  claim_C6 "//cdn.example/x.png" (fun _ => ImgResult.err) 0 0 [] (by decide) (by decide)

/-- C7 (counterexample): `safe_folder_name` keeps `é` — Python's
`str.isalnum` is Unicode-aware — while the claimed replacement of every
character outside `[A-Za-z0-9_-]` would map it to `_`. -/
theorem claim_C7_counterexample :
    safe_folder_name "Café" = "Café" ∧ specSafeFolderName "Café" = "Caf_" ∧
    safe_folder_name "Café" ≠ specSafeFolderName "Café" :=
  ⟨rfl, rfl, by decide⟩

/-- C7 (amended): for titles made of ASCII characters the folder name is
obtained by replacing every character outside `[A-Za-z0-9_-]` with `_`; a
non-ASCII alphanumeric character (such as `é`) is kept unchanged because
Python's `isalnum` is Unicode-aware, so the claim's character-set
description only holds on ASCII input. -/
theorem claim_C7 (title : String) (h : ∀ c ∈ title.data, c.toNat < 128) :
    safe_folder_name title = specSafeFolderName title := by
  unfold safe_folder_name specSafeFolderName
  refine congrArg String.mk (List.map_congr_left ?_)
  intro c hc
  have hlt := h c hc
  have hpy : pyIsAlnum c = c.isAlphanum := by
    unfold pyIsAlnum
    cases hA : c.isAlphanum with
    | true => simp
    | false =>
      simp only [Bool.false_or, Bool.or_eq_false_iff, decide_eq_false_iff_not,
        Bool.and_eq_false_iff, decide_eq_true_eq]
      omega
  rw [hpy]

/-- Closed instance of the amended C7 on an ASCII title. -/
theorem claim_C7_witness :
    safe_folder_name "A b-c_9!" = specSafeFolderName "A b-c_9!" :=
  claim_C7 "A b-c_9!" (by decide)

/-- C8: when the fetch of a not-yet-visited URL raises a transport error or
returns a non-200 status, `crawl_page` returns `None` having only marked
the URL visited and recorded that single fetch — no file is written and no
recursion happens from that node — and inside a parent's sublink loop such
a failing child does not abort the scan of its sibling links. -/
theorem claim_C8 (pf : String → PageResult) (imf : String → ImgResult)
    (fuel : Nat) (s : CrawlState) (u : String) (d : Nat)
    (rest : List String) (c : Nat)
    (hvis : urljoin u ∉ s.visited)
    (hbad : pf (urljoin u) = PageResult.err ∨
      ∃ st body, pf (urljoin u) = PageResult.ok st body ∧ st ≠ 200)
    (hcr : crawlable u = true) (hc : c < SUBLINK_LIMIT) :
    crawl_page pf imf (fuel + 1) s u d =
      (none, { s with visited := urljoin u :: s.visited,
                      fetched := s.fetched ++ [urljoin u] }) ∧
    crawlLoopF (fun st h => (crawl_page pf imf (fuel + 1) st h d).2) s c (u :: rest) =
      crawlLoopF (fun st h => (crawl_page pf imf (fuel + 1) st h d).2)
        { s with visited := urljoin u :: s.visited,
                 fetched := s.fetched ++ [urljoin u] } (c + 1) rest := by
  have hmain : crawl_page pf imf (fuel + 1) s u d =
      (none, { s with visited := urljoin u :: s.visited,
                      fetched := s.fetched ++ [urljoin u] }) := by
    rw [crawl_page_succ, if_neg hvis]
    rcases hbad with herr | ⟨st, body, hok, hne⟩
    · rw [herr]
    · rw [hok]
      simp [hne]
  refine ⟨hmain, ?_⟩
  have hcap : ¬ SUBLINK_LIMIT ≤ c := by omega
  simp only [crawlLoopF, hcr, if_true, hcap, if_false, hmain]

/-- Closed instance of C8: a transport error on a fresh URL yields `None`,
one fetch, no writes, and the sibling loop continues. -/
theorem claim_C8_witness :
    crawl_page (fun _ => PageResult.err) (fun _ => ImgResult.err) (0 + 1)
        ⟨[], [], []⟩ "/wiki/A" 0 =
      (none, ⟨["https://en.wikipedia.org/wiki/A"],
              ["https://en.wikipedia.org/wiki/A"], []⟩) ∧
    crawlLoopF
        (fun st h => (crawl_page (fun _ => PageResult.err) (fun _ => ImgResult.err)
          (0 + 1) st h 0).2) ⟨[], [], []⟩ 0 ("/wiki/A" :: ["/wiki/B"]) =
      crawlLoopF
        (fun st h => (crawl_page (fun _ => PageResult.err) (fun _ => ImgResult.err)
          (0 + 1) st h 0).2)
        ⟨["https://en.wikipedia.org/wiki/A"],
         ["https://en.wikipedia.org/wiki/A"], []⟩ (0 + 1) ["/wiki/B"] :=
  claim_C8 (fun _ => PageResult.err) (fun _ => ImgResult.err) 0 ⟨[], [], []⟩
    "/wiki/A" 0 ["/wiki/B"] 0 (by decide) (Or.inl rfl) (by decide) (by decide)

/-- C10: an `img` element with a missing or empty `src` is skipped by the
image loop without any fetch or file write — the loop continues on the rest
exactly as if the element were not there, except that the element keeps its
ordinal — and every written file's index is a true position of the original
list (with nonempty `src` there), those indices being strictly increasing,
so a skipped position's index is never reused by a later image. -/
theorem claim_C10 (imf : String → ImgResult) (c i : Nat) (x : Option String)
    (rest : List (Nat × Option String)) (imgs : List (Option String))
    (e : SavedImage) (hx : x = none ∨ x = some "")
    (he : e ∈ (imageLoop imf imgs).1) :
    imageLoopAux imf c ((i, x) :: rest) = imageLoopAux imf c rest ∧
    imgs.get? e.idx = some (some e.src) ∧ e.src ≠ "" ∧
    List.Pairwise (fun a b => a.idx < b.idx) (imageLoop imf imgs).1 := by
  obtain ⟨-, hget, hne⟩ := imageLoop_mem he
  refine ⟨?_, hget, hne, imageLoop_pairwise imf imgs⟩
  by_cases hcap : IMAGE_LIMIT ≤ c
  · rw [imageLoopAux_cap imf _ c hcap, imageLoopAux_cap imf rest c hcap]
  · rcases hx with rfl | rfl <;> simp [imageLoopAux, hcap]

/-- Closed instance of C10: a leading `src`-less image is skipped and the
following image keeps index 1. -/
theorem claim_C10_witness :
    imageLoopAux (fun _ => ImgResult.ok 200 "b") 0 ((0, none) :: [(1, some "/y.png")]) =
      imageLoopAux (fun _ => ImgResult.ok 200 "b") 0 [(1, some "/y.png")] ∧
    [none, some "/y.png"].get? (⟨1, "/y.png", "img_1.png", "b"⟩ : SavedImage).idx =
      some (some (⟨1, "/y.png", "img_1.png", "b"⟩ : SavedImage).src) ∧
    (⟨1, "/y.png", "img_1.png", "b"⟩ : SavedImage).src ≠ "" ∧
    List.Pairwise (fun a b => a.idx < b.idx)
      (imageLoop (fun _ => ImgResult.ok 200 "b") [none, some "/y.png"]).1 :=
  claim_C10 (fun _ => ImgResult.ok 200 "b") 0 0 none [(1, some "/y.png")]
    [none, some "/y.png"] ⟨1, "/y.png", "img_1.png", "b"⟩ (Or.inl rfl) (by decide)

end WordSage
